import Mathlib

/-!
Shallow embedding of the process core of the fletch VM
(src/vm/process.cc), restricted to the parts the verified claims
are about: the stack-limit word and its interrupt markers, stack
growth in HandleStackOverflow, the object factories NewArray and
NewStack with their store-buffer behaviour, the cook/uncook pass
over coroutine stacks, the slow lookup-cache path, the mailbox
native ProcessQueueGetMessage, and SendSignal.

Machine integers (C++ uword) are modelled as Nat with explicit
bitwise operations; the word width is 64 bits.  Heap objects are
identified by numeric ids; the store buffer is the list of inserted
ids.  Allocation success/failure is an oracle (a list of Booleans
consumed by successive heap allocations), matching the fact that
every factory either returns an object or the retry_after_gc
sentinel.
-/

namespace Fletch

/-- Bit width of a C++ uword on the modelled (64-bit) target. -/
def uwordBits : Nat := 64

/-- All 64 bits set, the value of a uword with every bit one. -/
def uwordMask : Nat := 2 ^ uwordBits - 1

/-- Marker constant kPreemptMarker = 1 << 0 from process.cc. -/
def kPreemptMarker : Nat := 1

/-- Marker constant kProfileMarker = 1 << 1 from process.cc. -/
def kProfileMarker : Nat := 2

/-- Marker constant kDebugInterruptMarker = 1 << 2 from process.cc. -/
def kDebugInterruptMarker : Nat := 4

/-- Sentinel kMaxStackMarker = ~((1 << 3) - 1) from process.cc: all bits
set except the low three marker bits. -/
def kMaxStackMarker : Nat := uwordMask - 7

/-- Process::SetStackMarker: promote a real limit to the sentinel, then
atomically OR the marker bit in (the CAS loop is sequentially a single
read-modify-write). -/
def setStackMarker (limit marker : Nat) : Nat :=
  (if limit < kMaxStackMarker then kMaxStackMarker else limit) ||| marker

/-- Process::ClearStackMarker: atomically AND-NOT the marker bit
(complement taken inside the 64-bit word). -/
def clearStackMarker (limit marker : Nat) : Nat :=
  limit &&& (uwordMask ^^^ marker)

/-- Process::UpdateStackLimit: the limit word is replaced by the real
limit (derived from the current stack) only when the current value is a
real limit or the bare sentinel, i.e. at most kMaxStackMarker; while any
marker bit is still set the word is left unchanged. -/
def updateStackLimit (limit realLimit : Nat) : Nat :=
  if limit ≤ kMaxStackMarker then realLimit else limit

/-- Stack object: an id for heap identity, the top index (words from the
base) and the word contents; Stack::length() is the number of words.
Frame-pointer links inside the words are modelled stack-relative, so
Stack::UpdateFramePointers after a copy is the identity on contents. -/
structure Stack where
  id : Nat
  top : Nat
  words : List Nat
deriving Repr, DecidableEq

/-- Stack::length(), the number of words in the stack. -/
def Stack.length (s : Stack) : Nat := s.words.length

/-- Coroutine object: owns exactly one stack. -/
structure Coroutine where
  stack : Stack
deriving Repr, DecidableEq

/-- Process state for the claims about allocation, the store buffer and
stack growth: the atomic stack-limit word, the current coroutine, the
store buffer (ids of inserted heap objects), a fresh-id counter, the
allocation oracle (success of successive heap allocations), and two
instrumentation counters (number of heap allocation calls, number of
CollectMutableGarbage runs). -/
structure PState where
  stackLimit : Nat
  coroutine : Coroutine
  storeBuffer : List Nat
  nextId : Nat
  allocPlan : List Bool
  allocCalls : Nat
  gcCount : Nat
deriving Repr, DecidableEq

/-- Process::stack(): the current coroutine's stack. -/
def PState.stack (st : PState) : Stack := st.coroutine.stack

/-- Heap allocation primitive behind the typed factories: consumes one
entry of the allocation oracle; on success it hands out a fresh object
id, on failure it returns none (the retry_after_gc sentinel).  An
exhausted oracle fails. -/
def heapAllocate (st : PState) : Option Nat × PState :=
  match st.allocPlan with
  | [] => (none, { st with allocCalls := st.allocCalls + 1 })
  | b :: rest =>
    let st' := { st with allocPlan := rest, allocCalls := st.allocCalls + 1 }
    if b then (some st.nextId, { st' with nextId := st.nextId + 1 })
    else (none, st')

/-- Heap::CreateStack: allocates a stack object of the given length
(contents uninitialised, modelled as zero words, top zero until set). -/
def heapCreateStack (length : Nat) (st : PState) : Option Stack × PState :=
  match heapAllocate st with
  | (some i, st') => (some ⟨i, 0, List.replicate length 0⟩, st')
  | (none, st') => (none, st')

/-- Process::NewStack: calls Heap::CreateStack; on failure the failure
is returned, on success the new stack is inserted into the store buffer
before it is returned. -/
def newStack (length : Nat) (st : PState) : Option Stack × PState :=
  match heapCreateStack length st with
  | (some s, st') => (some s, { st' with storeBuffer := s.id :: st'.storeBuffer })
  | (none, st') => (none, st')

/-- Process::NewArray: calls Heap::CreateArray (null-filled contents are
not modelled, only heap identity) and returns the result directly; the
source performs no store-buffer insertion on this path. -/
def newArray (_length : Nat) (st : PState) : Option Nat × PState :=
  heapAllocate st

/-- Process::NewInstance on the mutable heap, as used by
SetupExecutionStack for the coroutine object (field contents are not
modelled, only heap identity). -/
def newInstance (st : PState) : Option Nat × PState :=
  heapAllocate st

/-- Recompute the stack limit of a process state from its current stack
via Process::UpdateStackLimit; the real limit address derived from the
stack (stack->Pointer(kGuaranteedFrameSize + 2)) is abstracted by the
parameter rl. -/
def updateStackLimitP (rl : Stack → Nat) (st : PState) : PState :=
  { st with stackLimit := updateStackLimit st.stackLimit (rl st.stack) }

/-- Process::UpdateCoroutine: install the coroutine, recompute the stack
limit, then insert its stack into the store buffer. -/
def updateCoroutine (rl : Stack → Nat) (c : Coroutine) (st : PState) : PState :=
  let st1 := updateStackLimitP rl { st with coroutine := c }
  { st1 with storeBuffer := c.stack.id :: st1.storeBuffer }

/-- Process::SetupExecutionStack: allocate the initial 256-word stack
through NewStack, allocate the coroutine instance, and install it via
UpdateCoroutine.  The source Stack::cast / Coroutine::cast assume the
allocations succeed; a failing allocation is modelled as none. -/
def setupExecutionStack (rl : Stack → Nat) (st : PState) : Option PState :=
  match newStack 256 st with
  | (some s, st1) =>
    match newInstance st1 with
    | (some _, st2) => some (updateCoroutine rl ⟨s⟩ st2)
    | (none, _) => none
  | (none, _) => none

/-- Process::CollectMutableGarbage, restricted to its effects on the
modelled state: it bumps the GC counter and ends with UpdateStackLimit.
Modelled from the spec: the scavenge itself (Space, StoreBuffer
internals) is outside the extracted sources; its rebuilt store buffer
re-captures the live entries relevant here, so the buffer is carried
over unchanged. -/
def collectMutableGarbage (rl : Stack → Nat) (st : PState) : PState :=
  updateStackLimitP rl { st with gcCount := st.gcCount + 1 }

/-- Ceiling of the base-two logarithm, by structural recursion on a fuel
argument (fuel n suffices for input n). -/
def log2Ceil (fuel n : Nat) : Nat :=
  match fuel with
  | 0 => 0
  | f + 1 => if n ≤ 1 then 0 else log2Ceil f ((n + 1) / 2) + 1

/-- Modelled from the spec: Utils::RoundUpToPowerOfTwo (src/shared/utils.h
is not among the extracted sources) rounds its argument up to the least
power of two that is at least the argument. -/
def roundUpToPowerOfTwo (n : Nat) : Nat := 2 ^ log2Ceil n n

/-- Result enum Process::StackCheckResult from process.h. -/
inductive StackCheckResult where
  | kStackCheckContinue
  | kStackCheckInterrupt
  | kStackCheckDebugInterrupt
  | kStackCheckOverflow
deriving Repr, DecidableEq

/-- Tail of Process::HandleStackOverflow after a successful stack
allocation: set the new top so the height is preserved, memcpy the live
suffix, rewrite frame pointers (identity in this relative model),
install the stack on the coroutine, insert it into the store buffer,
recompute the limit and return Continue. -/
def finishStackGrow (rl : Stack → Nat) (ns : Stack) (st : PState) :
    StackCheckResult × PState :=
  let height := st.stack.length - st.stack.top
  let newTop := ns.length - height
  let ns' : Stack := ⟨ns.id, newTop,
    List.replicate newTop 0 ++ st.stack.words.drop st.stack.top⟩
  let st1 := { st with coroutine := ⟨ns'⟩ }
  let st2 := { st1 with storeBuffer := ns'.id :: st1.storeBuffer }
  (StackCheckResult.kStackCheckContinue, updateStackLimitP rl st2)

/-- Growth path of Process::HandleStackOverflow: round the addition up
to a power of two, take the max with 256, refuse when the platform
maximum (msw) would be exceeded, allocate (with one GC-and-retry on
retry_after_gc, a second failure returning Overflow), and finish the
copy. -/
def handleStackOverflowGrow (msw : Nat) (rl : Stack → Nat) (addition : Nat)
    (st : PState) : StackCheckResult × PState :=
  if msw < st.stack.length + max 256 (roundUpToPowerOfTwo addition)
  then (StackCheckResult.kStackCheckOverflow, st)
  else
    match newStack (st.stack.length + max 256 (roundUpToPowerOfTwo addition)) st with
    | (some ns, st1) => finishStackGrow rl ns st1
    | (none, st1) =>
      match newStack (st.stack.length + max 256 (roundUpToPowerOfTwo addition))
          (collectMutableGarbage rl st1) with
      | (some ns, st3) => finishStackGrow rl ns st3
      | (none, st3) => (StackCheckResult.kStackCheckOverflow, st3)

/-- Process::HandleStackOverflow: when the limit word is at least
kMaxStackMarker, test the markers in the order preempt, debug-interrupt,
profile; on a hit clear that marker, recompute the limit and return the
corresponding result; otherwise fall through to the growth path. -/
def handleStackOverflow (msw : Nat) (rl : Stack → Nat) (addition : Nat)
    (st : PState) : StackCheckResult × PState :=
  let cl := st.stackLimit
  if kMaxStackMarker ≤ cl then
    if cl &&& kPreemptMarker ≠ 0 then
      (StackCheckResult.kStackCheckInterrupt,
        updateStackLimitP rl { st with stackLimit := clearStackMarker cl kPreemptMarker })
    else if cl &&& kDebugInterruptMarker ≠ 0 then
      (StackCheckResult.kStackCheckDebugInterrupt,
        updateStackLimitP rl { st with stackLimit := clearStackMarker cl kDebugInterruptMarker })
    else if cl &&& kProfileMarker ≠ 0 then
      (StackCheckResult.kStackCheckContinue,
        updateStackLimitP rl { st with stackLimit := clearStackMarker cl kProfileMarker })
    else handleStackOverflowGrow msw rl addition st
  else handleStackOverflowGrow msw rl addition st

/-- Concrete process state used to evaluate the model: empty stack,
empty store buffer, fresh ids from 1, one successful allocation in the
oracle. -/
def cexPState : PState := ⟨0, ⟨⟨0, 0, []⟩⟩, [], 1, [true], 0, 0⟩

/-- Process state after newStack 5 cexPState: the fresh stack id 1 has
been inserted into the store buffer. -/
def cexAfterNewStack : PState := ⟨0, ⟨⟨0, 0, []⟩⟩, [1], 2, [], 1, 0⟩

/-- C1 counterexample: at a concrete input Process::NewArray returns a
non-failure array (id 1), yet that array is not a member of the store
buffer afterwards — NewArray performs no store-buffer insertion,
refuting the claim for arrays. -/
theorem newArray_not_inserted_cex :
    (newArray 3 cexPState).1 = some 1 ∧
      1 ∉ ((newArray 3 cexPState).2).storeBuffer := by
  decide

/-- C1 (amended): Process::NewStack inserts the allocated stack into the
store buffer on success — after NewStack returns a non-failure stack S,
S is a member of the store buffer; Process::NewArray, by contrast,
leaves the store buffer unchanged, arrays being tracked by the mutation
write barrier rather than at allocation. -/
theorem claim_C1_amended :
    (∀ (n : Nat) (st : PState) (s : Stack) (st' : PState),
        newStack n st = (some s, st') → s.id ∈ st'.storeBuffer) ∧
    (∀ (n : Nat) (st : PState),
        ((newArray n st).2).storeBuffer = st.storeBuffer) := by
  refine ⟨?_, ?_⟩
  · intro n st s st' h
    rcases hc : heapCreateStack n st with ⟨o, st1⟩
    cases o with
    | none => simp [newStack, hc] at h
    | some s0 =>
      simp only [newStack, hc] at h
      obtain ⟨hs, hst⟩ := Prod.mk.injEq .. ▸ h
      cases Option.some.inj hs
      cases hst
      simp
  · intro n st
    simp only [newArray, heapAllocate]
    cases st.allocPlan with
    | nil => rfl
    | cons b rest => cases b <;> simp

/-- C1 amended witness: the amended claim evaluated at the concrete
state cexPState, with the hypothesis discharged by computation. -/
theorem claim_C1_amended_witness :
    newStack 5 cexPState = (some ⟨1, 0, List.replicate 5 0⟩, cexAfterNewStack) ∧
    (1 : Nat) ∈ cexAfterNewStack.storeBuffer ∧
    ((newArray 7 cexPState).2).storeBuffer = cexPState.storeBuffer :=
  ⟨by decide,
   claim_C1_amended.1 5 cexPState ⟨1, 0, List.replicate 5 0⟩ cexAfterNewStack
     (by decide),
   claim_C1_amended.2 7 cexPState⟩

/-- Operations on the atomic stack-limit word: Process::SetStackMarker,
Process::ClearStackMarker and Process::UpdateStackLimit (the latter
carrying the real limit recomputed from the current stack). -/
inductive LimitOp where
  | set (marker : Nat)
  | clear (marker : Nat)
  | update (realLimit : Nat)
deriving Repr, DecidableEq

/-- Apply one stack-limit operation to the limit word. -/
def applyLimitOp (v : Nat) : LimitOp → Nat
  | .set m => setStackMarker v m
  | .clear m => clearStackMarker v m
  | .update r => updateStackLimit v r

/-- Run a sequence of stack-limit operations. -/
def runLimitOps (v : Nat) (ops : List LimitOp) : Nat :=
  ops.foldl applyLimitOp v

/-- Well-formedness of a limit operation: markers are one of the three
marker bits from process.cc, and a recomputed real limit (a stack
address) is at most kMaxStackMarker. -/
def ValidLimitOp : LimitOp → Prop
  | .set m => m = kPreemptMarker ∨ m = kProfileMarker ∨ m = kDebugInterruptMarker
  | .clear m => m = kPreemptMarker ∨ m = kProfileMarker ∨ m = kDebugInterruptMarker
  | .update r => r ≤ kMaxStackMarker

instance (op : LimitOp) : Decidable (ValidLimitOp op) := by
  cases op <;> (dsimp only [ValidLimitOp]) <;> infer_instance

/-- Invariant of the stack-limit word from the spec: the word is either
a real limit (at most kMaxStackMarker) or the bit-or of kMaxStackMarker
with one or more marker bits (a non-zero value of the low three bits). -/
def StackLimitInvariant (v : Nat) : Prop :=
  v ≤ kMaxStackMarker ∨ ∃ m, 0 < m ∧ m ≤ 7 ∧ v = kMaxStackMarker ||| m

/-- Arithmetic characterisation of the invariant used in the proofs. -/
def StackLimitBounded (v : Nat) : Prop :=
  v ≤ kMaxStackMarker ∨ (kMaxStackMarker < v ∧ v ≤ kMaxStackMarker + 7)

instance (v : Nat) : Decidable (StackLimitBounded v) := by
  unfold StackLimitBounded
  infer_instance

theorem kMax_lor_small (m : Nat) (hm : m ≤ 7) :
    kMaxStackMarker ||| m = kMaxStackMarker + m := by
  interval_cases m <;> decide

theorem stackLimitInvariant_iff (v : Nat) :
    StackLimitInvariant v ↔ StackLimitBounded v := by
  constructor
  · rintro (h | ⟨m, h0, h7, rfl⟩)
    · exact Or.inl h
    · right
      rw [kMax_lor_small m h7]
      omega
  · rintro (h | ⟨h1, h2⟩)
    · exact Or.inl h
    · right
      refine ⟨v - kMaxStackMarker, by omega, by omega, ?_⟩
      rw [kMax_lor_small (v - kMaxStackMarker) (by omega)]
      omega

theorem applyLimitOp_preserves (v : Nat) (op : LimitOp)
    (hv : StackLimitBounded v) (hop : ValidLimitOp op) :
    StackLimitBounded (applyLimitOp v op) := by
  cases op with
  | set m =>
    rcases hv with h | ⟨h1, h2⟩
    · show StackLimitBounded (setStackMarker v m)
      unfold setStackMarker
      by_cases hlt : v < kMaxStackMarker
      · simp only [if_pos hlt]
        rcases hop with rfl | rfl | rfl <;> decide
      · have hveq : v = kMaxStackMarker := Nat.le_antisymm h (Nat.not_lt.mp hlt)
        simp only [if_neg hlt, hveq]
        rcases hop with rfl | rfl | rfl <;> decide
    · obtain ⟨m0, hm0a, hm0b, rfl⟩ :
        ∃ m0, 0 < m0 ∧ m0 ≤ 7 ∧ v = kMaxStackMarker + m0 :=
        ⟨v - kMaxStackMarker, by omega, by omega, by omega⟩
      show StackLimitBounded (setStackMarker (kMaxStackMarker + m0) m)
      interval_cases m0 <;> rcases hop with rfl | rfl | rfl <;> decide
  | clear m =>
    rcases hv with h | ⟨h1, h2⟩
    · exact Or.inl (Nat.le_trans Nat.and_le_left h)
    · obtain ⟨m0, hm0a, hm0b, rfl⟩ :
        ∃ m0, 0 < m0 ∧ m0 ≤ 7 ∧ v = kMaxStackMarker + m0 :=
        ⟨v - kMaxStackMarker, by omega, by omega, by omega⟩
      show StackLimitBounded (clearStackMarker (kMaxStackMarker + m0) m)
      interval_cases m0 <;> rcases hop with rfl | rfl | rfl <;> decide
  | update r =>
    show StackLimitBounded (updateStackLimit v r)
    unfold updateStackLimit
    by_cases hle : v ≤ kMaxStackMarker
    · simp only [if_pos hle]
      exact Or.inl hop
    · simp only [if_neg hle]
      exact hv

/-- C6: the stack-limit word invariant is preserved by every sequence of
SetStackMarker, ClearStackMarker and UpdateStackLimit calls (with valid
marker arguments and real limits): the word stays either a real limit
(at most kMaxStackMarker) or the bit-or of kMaxStackMarker with one or
more marker bits; moreover UpdateStackLimit installs the real limit
exactly when the word is at most kMaxStackMarker (no marker bits
remain), leaves any value above kMaxStackMarker (a sentinel with marker
bits) unchanged, and every sentinel-with-markers value is indeed above
kMaxStackMarker. -/
theorem claim_C6 :
    (∀ (v : Nat) (ops : List LimitOp), StackLimitInvariant v →
        (∀ op ∈ ops, ValidLimitOp op) →
        StackLimitInvariant (runLimitOps v ops)) ∧
    (∀ v r : Nat, kMaxStackMarker < v → updateStackLimit v r = v) ∧
    (∀ v r : Nat, v ≤ kMaxStackMarker → updateStackLimit v r = r) ∧
    (∀ v m : Nat, 0 < m → m ≤ 7 → v = kMaxStackMarker ||| m →
        kMaxStackMarker < v) := by
  refine ⟨?_, ?_, ?_, ?_⟩
  · intro v ops hv hops
    rw [stackLimitInvariant_iff] at hv ⊢
    induction ops generalizing v with
    | nil => exact hv
    | cons op rest ih =>
      have h1 : ValidLimitOp op := hops op (List.mem_cons_self op rest)
      have h2 : ∀ o ∈ rest, ValidLimitOp o := fun o ho =>
        hops o (List.mem_cons_of_mem op ho)
      exact ih (applyLimitOp v op) (applyLimitOp_preserves v op hv h1) h2
  · intro v r h
    exact if_neg (Nat.not_le.mpr h)
  · intro v r h
    exact if_pos h
  · intro v m h0 h7 hv
    rw [hv, kMax_lor_small m h7]
    omega

/-- C6 witness: the invariant evaluated across a concrete operation
sequence (set preempt, set debug-interrupt, clear preempt, recompute),
with both hypotheses discharged by computation. -/
theorem claim_C6_witness :
    StackLimitInvariant 1000 ∧
    (∀ op ∈ [LimitOp.set 1, LimitOp.set 4, LimitOp.clear 1,
        LimitOp.update 1000], ValidLimitOp op) ∧
    StackLimitInvariant (runLimitOps 1000
      [LimitOp.set 1, LimitOp.set 4, LimitOp.clear 1, LimitOp.update 1000]) :=
  ⟨Or.inl (by decide), by decide,
   claim_C6.1 1000
     [LimitOp.set 1, LimitOp.set 4, LimitOp.clear 1, LimitOp.update 1000]
     (Or.inl (by decide)) (by decide)⟩

theorem clearStackMarker_self_zero (v m : Nat)
    (h : (uwordMask ^^^ m) &&& m = 0) : clearStackMarker v m &&& m = 0 := by
  rw [clearStackMarker, Nat.land_assoc, h, Nat.and_zero]

theorem clearStackMarker_other (v m w : Nat)
    (h : (uwordMask ^^^ m) &&& w = w) : clearStackMarker v m &&& w = v &&& w := by
  rw [clearStackMarker, Nat.land_assoc, h]

/-- C4: when the stack-limit word carries the kMaxStackMarker sentinel,
HandleStackOverflow services exactly one pending marker per call,
testing preempt first, then debug-interrupt, then profile: it clears
that single marker bit (the other marker bits are untouched), recomputes
the stack limit via UpdateStackLimit, returns Interrupt for preempt,
DebugInterrupt for debug-interrupt and Continue for profile, and leaves
the coroutine (hence its stack object) and the store buffer unchanged on
these paths. -/
theorem claim_C4 (msw : Nat) (rl : Stack → Nat) (k : Nat) (st : PState)
    (hge : kMaxStackMarker ≤ st.stackLimit) :
    (st.stackLimit &&& kPreemptMarker ≠ 0 →
      handleStackOverflow msw rl k st =
        (StackCheckResult.kStackCheckInterrupt,
          updateStackLimitP rl
            { st with stackLimit := clearStackMarker st.stackLimit kPreemptMarker }) ∧
      (handleStackOverflow msw rl k st).2.coroutine = st.coroutine ∧
      (handleStackOverflow msw rl k st).2.storeBuffer = st.storeBuffer ∧
      clearStackMarker st.stackLimit kPreemptMarker &&& kPreemptMarker = 0 ∧
      clearStackMarker st.stackLimit kPreemptMarker &&& kDebugInterruptMarker =
        st.stackLimit &&& kDebugInterruptMarker ∧
      clearStackMarker st.stackLimit kPreemptMarker &&& kProfileMarker =
        st.stackLimit &&& kProfileMarker) ∧
    (st.stackLimit &&& kPreemptMarker = 0 →
     st.stackLimit &&& kDebugInterruptMarker ≠ 0 →
      handleStackOverflow msw rl k st =
        (StackCheckResult.kStackCheckDebugInterrupt,
          updateStackLimitP rl
            { st with stackLimit := clearStackMarker st.stackLimit kDebugInterruptMarker }) ∧
      (handleStackOverflow msw rl k st).2.coroutine = st.coroutine ∧
      (handleStackOverflow msw rl k st).2.storeBuffer = st.storeBuffer ∧
      clearStackMarker st.stackLimit kDebugInterruptMarker &&& kDebugInterruptMarker = 0 ∧
      clearStackMarker st.stackLimit kDebugInterruptMarker &&& kPreemptMarker =
        st.stackLimit &&& kPreemptMarker ∧
      clearStackMarker st.stackLimit kDebugInterruptMarker &&& kProfileMarker =
        st.stackLimit &&& kProfileMarker) ∧
    (st.stackLimit &&& kPreemptMarker = 0 →
     st.stackLimit &&& kDebugInterruptMarker = 0 →
     st.stackLimit &&& kProfileMarker ≠ 0 →
      handleStackOverflow msw rl k st =
        (StackCheckResult.kStackCheckContinue,
          updateStackLimitP rl
            { st with stackLimit := clearStackMarker st.stackLimit kProfileMarker }) ∧
      (handleStackOverflow msw rl k st).2.coroutine = st.coroutine ∧
      (handleStackOverflow msw rl k st).2.storeBuffer = st.storeBuffer ∧
      clearStackMarker st.stackLimit kProfileMarker &&& kProfileMarker = 0 ∧
      clearStackMarker st.stackLimit kProfileMarker &&& kPreemptMarker =
        st.stackLimit &&& kPreemptMarker ∧
      clearStackMarker st.stackLimit kProfileMarker &&& kDebugInterruptMarker =
        st.stackLimit &&& kDebugInterruptMarker) := by
  refine ⟨?_, ?_, ?_⟩
  · intro hp
    have heq : handleStackOverflow msw rl k st =
        (StackCheckResult.kStackCheckInterrupt,
          updateStackLimitP rl
            { st with stackLimit := clearStackMarker st.stackLimit kPreemptMarker }) := by
      unfold handleStackOverflow
      rw [if_pos hge, if_pos hp]
    refine ⟨heq, ?_, ?_, ?_, ?_, ?_⟩
    · rw [heq]; rfl
    · rw [heq]; rfl
    · exact clearStackMarker_self_zero _ _ (by decide)
    · exact clearStackMarker_other _ _ _ (by decide)
    · exact clearStackMarker_other _ _ _ (by decide)
  · intro hp hd
    have heq : handleStackOverflow msw rl k st =
        (StackCheckResult.kStackCheckDebugInterrupt,
          updateStackLimitP rl
            { st with stackLimit := clearStackMarker st.stackLimit kDebugInterruptMarker }) := by
      unfold handleStackOverflow
      rw [if_pos hge, if_neg (not_not_intro hp), if_pos hd]
    refine ⟨heq, ?_, ?_, ?_, ?_, ?_⟩
    · rw [heq]; rfl
    · rw [heq]; rfl
    · exact clearStackMarker_self_zero _ _ (by decide)
    · exact clearStackMarker_other _ _ _ (by decide)
    · exact clearStackMarker_other _ _ _ (by decide)
  · intro hp hd hpr
    have heq : handleStackOverflow msw rl k st =
        (StackCheckResult.kStackCheckContinue,
          updateStackLimitP rl
            { st with stackLimit := clearStackMarker st.stackLimit kProfileMarker }) := by
      unfold handleStackOverflow
      rw [if_pos hge, if_neg (not_not_intro hp), if_neg (not_not_intro hd),
        if_pos hpr]
    refine ⟨heq, ?_, ?_, ?_, ?_, ?_⟩
    · rw [heq]; rfl
    · rw [heq]; rfl
    · exact clearStackMarker_self_zero _ _ (by decide)
    · exact clearStackMarker_other _ _ _ (by decide)
    · exact clearStackMarker_other _ _ _ (by decide)

/-- Concrete process state with both the preempt and debug-interrupt
markers pending on the stack-limit word. -/
def markedPState : PState :=
  { cexPState with stackLimit := kMaxStackMarker + 5 }

/-- C4 witness: the marker-servicing behaviour evaluated on a state with
preempt and debug-interrupt pending, the hypotheses discharged by
computation — the preempt marker wins and Interrupt is returned. -/
theorem claim_C4_witness :
    kMaxStackMarker ≤ markedPState.stackLimit ∧
    markedPState.stackLimit &&& kPreemptMarker ≠ 0 ∧
    handleStackOverflow 10000 (fun _ => 64) 1 markedPState =
      (StackCheckResult.kStackCheckInterrupt,
        updateStackLimitP (fun _ => 64)
          { markedPState with
              stackLimit := clearStackMarker markedPState.stackLimit kPreemptMarker }) :=
  ⟨by decide, by decide,
    ((claim_C4 10000 (fun _ => 64) 1 markedPState (by decide)).1 (by decide)).1⟩

/-- C3: for a coroutine whose stack has length L and height h = L - top
with h < L, and k > 0, when no interrupt marker is pending: if
L + max(256, next power of two of k) fits within the platform maximum
and the allocation succeeds, HandleStackOverflow(k) returns Continue and
the current stack afterwards has length exactly L + max(256, next_pow2 k),
its top is placed so the height is preserved, and its top h words equal
the original stack's top h words; if the new size exceeds the platform
maximum, it returns Overflow with the whole state (in particular the
stack) unchanged. -/
theorem claim_C3 (msw : Nat) (rl : Stack → Nat) (k : Nat) (st : PState)
    (hk : 0 < k)
    (hm : st.stackLimit < kMaxStackMarker)
    (htop : 0 < st.stack.top)
    (hle : st.stack.top ≤ st.stack.length) :
    (st.stack.length + max 256 (roundUpToPowerOfTwo k) ≤ msw →
     st.allocPlan.head? = some true →
      (handleStackOverflow msw rl k st).1 = StackCheckResult.kStackCheckContinue ∧
      ((handleStackOverflow msw rl k st).2).stack.length =
        st.stack.length + max 256 (roundUpToPowerOfTwo k) ∧
      ((handleStackOverflow msw rl k st).2).stack.top =
        ((handleStackOverflow msw rl k st).2).stack.length -
          (st.stack.length - st.stack.top) ∧
      ((handleStackOverflow msw rl k st).2).stack.words.drop
          ((handleStackOverflow msw rl k st).2).stack.top =
        st.stack.words.drop st.stack.top) ∧
    (msw < st.stack.length + max 256 (roundUpToPowerOfTwo k) →
      handleStackOverflow msw rl k st =
        (StackCheckResult.kStackCheckOverflow, st)) := by
  have hnot : ¬ (kMaxStackMarker ≤ st.stackLimit) := Nat.not_le.mpr hm
  constructor
  · intro hfit hhead
    obtain ⟨rest, hplan⟩ : ∃ rest, st.allocPlan = true :: rest := by
      cases hp : st.allocPlan with
      | nil =>
        rw [hp] at hhead
        simp at hhead
      | cons b r =>
        rw [hp] at hhead
        simp at hhead
        exact ⟨r, by rw [hhead]⟩
    have hnlt : ¬ (msw < st.stack.length + max 256 (roundUpToPowerOfTwo k)) :=
      Nat.not_lt.mpr hfit
    simp only [PState.stack, Stack.length] at hnlt
    refine ⟨?_, ?_, ?_, ?_⟩ <;>
      simp [handleStackOverflow, handleStackOverflowGrow, newStack,
        heapCreateStack, heapAllocate, finishStackGrow, updateStackLimitP,
        PState.stack, Stack.length, hplan, hnot, hnlt] <;>
      omega
  · intro hbig
    simp only [PState.stack, Stack.length] at hbig
    simp [handleStackOverflow, handleStackOverflowGrow, hnot, hbig,
      PState.stack, Stack.length]

/-- Concrete process state for exercising the growth path: a two-word
stack at height one, no marker pending, one successful allocation. -/
def growPState : PState := ⟨0, ⟨⟨0, 1, [7, 8]⟩⟩, [], 1, [true], 0, 0⟩

/-- C3 witness: stack growth evaluated at the concrete state growPState
with addition 4, every hypothesis discharged by computation. -/
theorem claim_C3_witness :
    0 < 4 ∧ growPState.stackLimit < kMaxStackMarker ∧
    0 < growPState.stack.top ∧
    growPState.stack.top ≤ growPState.stack.length ∧
    growPState.stack.length + max 256 (roundUpToPowerOfTwo 4) ≤ 1000 ∧
    growPState.allocPlan.head? = some true ∧
    ((handleStackOverflow 1000 (fun _ => 64) 4 growPState).1 =
        StackCheckResult.kStackCheckContinue ∧
      ((handleStackOverflow 1000 (fun _ => 64) 4 growPState).2).stack.length =
        growPState.stack.length + max 256 (roundUpToPowerOfTwo 4) ∧
      ((handleStackOverflow 1000 (fun _ => 64) 4 growPState).2).stack.top =
        ((handleStackOverflow 1000 (fun _ => 64) 4 growPState).2).stack.length -
          (growPState.stack.length - growPState.stack.top) ∧
      ((handleStackOverflow 1000 (fun _ => 64) 4 growPState).2).stack.words.drop
          ((handleStackOverflow 1000 (fun _ => 64) 4 growPState).2).stack.top =
        growPState.stack.words.drop growPState.stack.top) :=
  ⟨by decide, by decide, by decide, by decide, by decide, by decide,
    (claim_C3 1000 (fun _ => 64) 4 growPState (by decide) (by decide)
        (by decide) (by decide)).1 (by decide) (by decide)⟩

/-- C7: in HandleStackOverflow, when the stack allocation returns the
retry_after_gc sentinel the process runs CollectMutableGarbage exactly
once and retries the allocation exactly once (the GC counter rises by
one and exactly two allocation calls are made); if the retried
allocation fails again HandleStackOverflow returns Overflow with the
coroutine's stack unreplaced, while success on the first or the second
attempt returns Continue (a first-attempt success performing no GC and a
single allocation call). -/
theorem claim_C7 (msw : Nat) (rl : Stack → Nat) (k : Nat) (st : PState)
    (hm : st.stackLimit < kMaxStackMarker)
    (hfit : st.stack.length + max 256 (roundUpToPowerOfTwo k) ≤ msw) :
    (∀ rest, st.allocPlan = true :: rest →
      (handleStackOverflow msw rl k st).1 = StackCheckResult.kStackCheckContinue ∧
      ((handleStackOverflow msw rl k st).2).gcCount = st.gcCount ∧
      ((handleStackOverflow msw rl k st).2).allocCalls = st.allocCalls + 1) ∧
    (∀ rest, st.allocPlan = false :: true :: rest →
      (handleStackOverflow msw rl k st).1 = StackCheckResult.kStackCheckContinue ∧
      ((handleStackOverflow msw rl k st).2).gcCount = st.gcCount + 1 ∧
      ((handleStackOverflow msw rl k st).2).allocCalls = st.allocCalls + 2) ∧
    (∀ rest, st.allocPlan = false :: false :: rest →
      (handleStackOverflow msw rl k st).1 = StackCheckResult.kStackCheckOverflow ∧
      ((handleStackOverflow msw rl k st).2).gcCount = st.gcCount + 1 ∧
      ((handleStackOverflow msw rl k st).2).allocCalls = st.allocCalls + 2 ∧
      ((handleStackOverflow msw rl k st).2).stack = st.stack) := by
  have hnot : ¬ (kMaxStackMarker ≤ st.stackLimit) := Nat.not_le.mpr hm
  have hnlt : ¬ (msw < st.stack.length + max 256 (roundUpToPowerOfTwo k)) :=
    Nat.not_lt.mpr hfit
  simp only [PState.stack, Stack.length] at hnlt
  refine ⟨?_, ?_, ?_⟩ <;> intro rest hplan <;>
    simp [handleStackOverflow, handleStackOverflowGrow, newStack,
      heapCreateStack, heapAllocate, finishStackGrow, updateStackLimitP,
      collectMutableGarbage, PState.stack, Stack.length, hplan, hnot, hnlt]

/-- Concrete process state whose first allocation fails with
retry_after_gc and whose retried allocation succeeds. -/
def retryPState : PState := ⟨0, ⟨⟨0, 1, [7, 8]⟩⟩, [], 1, [false, true], 0, 0⟩

/-- C7 witness: the retry behaviour evaluated at retryPState (first
allocation fails, one GC runs, the retry succeeds), all hypotheses
discharged by computation. -/
theorem claim_C7_witness :
    retryPState.stackLimit < kMaxStackMarker ∧
    retryPState.stack.length + max 256 (roundUpToPowerOfTwo 4) ≤ 1000 ∧
    retryPState.allocPlan = false :: true :: [] ∧
    ((handleStackOverflow 1000 (fun _ => 64) 4 retryPState).1 =
        StackCheckResult.kStackCheckContinue ∧
      ((handleStackOverflow 1000 (fun _ => 64) 4 retryPState).2).gcCount =
        retryPState.gcCount + 1 ∧
      ((handleStackOverflow 1000 (fun _ => 64) 4 retryPState).2).allocCalls =
        retryPState.allocCalls + 2) :=
  ⟨by decide, by decide, by decide,
    (claim_C7 1000 (fun _ => 64) 4 retryPState (by decide) (by decide)).2.1 []
      (by decide)⟩

theorem heapAllocate_frame (st : PState) :
    ((heapAllocate st).2).stackLimit = st.stackLimit ∧
    ((heapAllocate st).2).coroutine = st.coroutine ∧
    ((heapAllocate st).2).storeBuffer = st.storeBuffer := by
  cases hp : st.allocPlan with
  | nil => simp [heapAllocate, hp]
  | cons b rest => cases b <;> simp [heapAllocate, hp]

theorem newStack_frame (n : Nat) (st : PState) :
    ((newStack n st).2).stackLimit = st.stackLimit ∧
    ((newStack n st).2).coroutine = st.coroutine ∧
    ((newStack n st).1 = none → ((newStack n st).2).storeBuffer = st.storeBuffer) := by
  cases hp : st.allocPlan with
  | nil => simp [newStack, heapCreateStack, heapAllocate, hp]
  | cons b rest =>
    cases b <;> simp [newStack, heapCreateStack, heapAllocate, hp]

theorem collectMutableGarbage_frame (rl : Stack → Nat) (st : PState) :
    (collectMutableGarbage rl st).coroutine = st.coroutine ∧
    (collectMutableGarbage rl st).storeBuffer = st.storeBuffer := by
  simp [collectMutableGarbage, updateStackLimitP]

theorem finishStackGrow_mem (rl : Stack → Nat) (ns : Stack) (st : PState) :
    ((finishStackGrow rl ns st).2).stack.id ∈
      ((finishStackGrow rl ns st).2).storeBuffer := by
  simp [finishStackGrow, updateStackLimitP, PState.stack]

theorem handleStackOverflowGrow_mem (msw : Nat) (rl : Stack → Nat) (k : Nat)
    (st : PState) (hmem : st.stack.id ∈ st.storeBuffer) :
    ((handleStackOverflowGrow msw rl k st).2).stack.id ∈
      ((handleStackOverflowGrow msw rl k st).2).storeBuffer := by
  unfold handleStackOverflowGrow
  by_cases hlt : msw < st.stack.length + max 256 (roundUpToPowerOfTwo k)
  · rw [if_pos hlt]
    exact hmem
  · rw [if_neg hlt]
    rcases h1 : newStack (st.stack.length + max 256 (roundUpToPowerOfTwo k)) st
      with ⟨o1, st1⟩
    cases o1 with
    | some ns => exact finishStackGrow_mem rl ns st1
    | none =>
      dsimp only
      rcases h2 : newStack (st.stack.length + max 256 (roundUpToPowerOfTwo k))
          (collectMutableGarbage rl st1) with ⟨o2, st3⟩
      cases o2 with
      | some ns => exact finishStackGrow_mem rl ns st3
      | none =>
        have f1 := newStack_frame (st.stack.length + max 256 (roundUpToPowerOfTwo k)) st
        rw [h1] at f1
        have f2 := newStack_frame (st.stack.length + max 256 (roundUpToPowerOfTwo k))
          (collectMutableGarbage rl st1)
        rw [h2] at f2
        have g1 := collectMutableGarbage_frame rl st1
        show (PState.stack st3).id ∈ st3.storeBuffer
        simp only [PState.stack] at hmem ⊢
        rw [f2.2.1, f2.2.2 rfl, g1.1, g1.2, f1.2.1, f1.2.2 rfl]
        exact hmem

/-- C10: every operation that installs a stack as the process's current
execution stack keeps it tracked — SetupExecutionStack and
UpdateCoroutine insert the current coroutine's stack into the store
buffer and recompute the stack limit from it, and HandleStackOverflow on
every path (marker service, overflow refusal, growth with or without an
intervening GC) leaves the current coroutine's stack a member of the
store buffer whenever it was one before, the growth path inserting the
replacement stack before the limit is recomputed. -/
theorem claim_C10 :
    (∀ (rl : Stack → Nat) (st st' : PState),
        setupExecutionStack rl st = some st' →
        st'.stack.id ∈ st'.storeBuffer ∧
        st'.stackLimit = updateStackLimit st.stackLimit (rl st'.stack)) ∧
    (∀ (rl : Stack → Nat) (c : Coroutine) (st : PState),
        (updateCoroutine rl c st).stack.id ∈ (updateCoroutine rl c st).storeBuffer ∧
        (updateCoroutine rl c st).stackLimit =
          updateStackLimit st.stackLimit (rl c.stack)) ∧
    (∀ (msw : Nat) (rl : Stack → Nat) (k : Nat) (st : PState),
        st.stack.id ∈ st.storeBuffer →
        ((handleStackOverflow msw rl k st).2).stack.id ∈
          ((handleStackOverflow msw rl k st).2).storeBuffer) := by
  refine ⟨?_, ?_, ?_⟩
  · intro rl st st' h
    unfold setupExecutionStack at h
    rcases h1 : newStack 256 st with ⟨o1, st1⟩
    rw [h1] at h
    cases o1 with
    | none => simp at h
    | some s =>
      dsimp only at h
      rcases h2 : newInstance st1 with ⟨o2, st2⟩
      rw [h2] at h
      cases o2 with
      | none => simp at h
      | some cid =>
        dsimp only at h
        rw [Option.some.injEq] at h
        subst h
        have f1 := newStack_frame 256 st
        rw [h1] at f1
        dsimp only at f1
        have f2 := heapAllocate_frame st1
        have h2' : (heapAllocate st1).2 = st2 := by
          have hh : heapAllocate st1 = (some cid, st2) := h2
          rw [hh]
        rw [h2'] at f2
        constructor
        · simp [updateCoroutine, updateStackLimitP, PState.stack]
        · simp [updateCoroutine, updateStackLimitP, PState.stack, f1.1, f2.1]
  · intro rl c st
    constructor
    · simp [updateCoroutine, updateStackLimitP, PState.stack]
    · simp [updateCoroutine, updateStackLimitP, PState.stack]
  · intro msw rl k st hmem
    unfold handleStackOverflow
    by_cases h1 : kMaxStackMarker ≤ st.stackLimit
    · rw [if_pos h1]
      by_cases h2 : st.stackLimit &&& kPreemptMarker ≠ 0
      · rw [if_pos h2]
        simpa [updateStackLimitP, PState.stack] using hmem
      · rw [if_neg h2]
        by_cases h3 : st.stackLimit &&& kDebugInterruptMarker ≠ 0
        · rw [if_pos h3]
          simpa [updateStackLimitP, PState.stack] using hmem
        · rw [if_neg h3]
          by_cases h4 : st.stackLimit &&& kProfileMarker ≠ 0
          · rw [if_pos h4]
            simpa [updateStackLimitP, PState.stack] using hmem
          · rw [if_neg h4]
            exact handleStackOverflowGrow_mem msw rl k st hmem
    · rw [if_neg h1]
      exact handleStackOverflowGrow_mem msw rl k st hmem

/-- Concrete process state whose current stack (id 0) is already a
member of the store buffer. -/
def trackedPState : PState := ⟨0, ⟨⟨0, 1, [7, 8]⟩⟩, [0], 1, [true], 0, 0⟩

/-- C10 witness: the store-buffer membership invariant pushed through a
concrete HandleStackOverflow growth call, the membership hypothesis
discharged by computation. -/
theorem claim_C10_witness :
    trackedPState.stack.id ∈ trackedPState.storeBuffer ∧
    ((handleStackOverflow 1000 (fun _ => 64) 4 trackedPState).2).stack.id ∈
      ((handleStackOverflow 1000 (fun _ => 64) 4 trackedPState).2).storeBuffer :=
  ⟨by decide, claim_C10.2.2 1000 (fun _ => 64) 4 trackedPState (by decide)⟩

/-- LookupCache::Entry from lookup_cache.h: a (class, selector) key, the
resolved target function (none models a null pointer) and the intrinsic
tag word. -/
structure CacheEntry where
  clazz : Nat
  selector : Nat
  target : Option Nat
  tag : Nat
deriving Repr, DecidableEq

/-- Process::LookupEntrySlow on a secondary miss resolves the method and
installs a fresh primary entry; classes, selectors and functions are ids
and the cache collaborators (Class::LookupMethod, the intrinsic table,
the encoded noSuchMethodTrampoline selector and
LookupCache::ComputeSecondaryIndex) are parameters since they live
outside the extracted sources.  Following process.cc lines 790-820: if
the secondary entry at the computed index matches the key it is returned
unchanged; otherwise the method is looked up — on a null result the
lookup retries with the noSuchMethodTrampoline selector and the tag
stays zero, on a hit the tag is the intrinsic pointer or the literal one
— then the current primary is demoted into the secondary slot of its own
old keys (DemotePrimary, modelled from the spec) and the new entry is
installed and returned. -/
def lookupEntrySlow (lookupMethod : Nat → Nat → Option Nat)
    (computeIntrinsic : Nat → Option Nat) (nsmSelector : Nat)
    (csi : Nat → Nat → Nat) (secondary : Nat → CacheEntry)
    (primary : CacheEntry) (clazz selector : Nat) :
    CacheEntry × (Nat → CacheEntry) :=
  if (secondary (csi clazz selector)).clazz = clazz ∧
     (secondary (csi clazz selector)).selector = selector then
    (secondary (csi clazz selector), secondary)
  else
    match lookupMethod clazz selector with
    | none =>
      (⟨clazz, selector, lookupMethod clazz nsmSelector, 0⟩,
        fun i => if i = csi primary.clazz primary.selector then primary
                 else secondary i)
    | some t =>
      (⟨clazz, selector, some t,
          match computeIntrinsic t with
          | none => 1
          | some p => p⟩,
        fun i => if i = csi primary.clazz primary.selector then primary
                 else secondary i)

/-- Method table used by the concrete counterexample: class 1 has no
method for selector 5 but does have the noSuchMethodTrampoline method
(selector 99, function 9). -/
def cexLookupMethod : Nat → Nat → Option Nat :=
  fun c s => if c = 1 ∧ s = 99 then some 9 else none

/-- C2 counterexample: at a concrete input where class.LookupMethod of
the selector finds no target and the resolution falls back to the
noSuchMethodTrampoline selector, the entry LookupEntrySlow returns
carries tag zero (with the trampoline as target) — refuting the claim
that the returned entry's tag is always non-zero. -/
theorem lookupEntrySlow_zero_tag_cex :
    (lookupEntrySlow cexLookupMethod (fun _ => none) 99 (fun _ _ => 0)
        (fun _ => ⟨0, 0, none, 0⟩) ⟨0, 0, none, 0⟩ 1 5).1.tag = 0 ∧
    (lookupEntrySlow cexLookupMethod (fun _ => none) 99 (fun _ _ => 0)
        (fun _ => ⟨0, 0, none, 0⟩) ⟨0, 0, none, 0⟩ 1 5).1.target = some 9 := by
  constructor <;> rfl

/-- C2 (amended): on a secondary miss, the entry LookupEntrySlow
installs and returns has a non-zero tag whenever class.LookupMethod of
the selector finds the target directly (intrinsic pointers being
non-null); when the lookup finds no target and falls back to the
noSuchMethodTrampoline selector, the installed entry's target is the
trampoline method but its tag is left zero. -/
theorem claim_C2_amended (lookupMethod : Nat → Nat → Option Nat)
    (computeIntrinsic : Nat → Option Nat) (nsmSelector : Nat)
    (csi : Nat → Nat → Nat) (secondary : Nat → CacheEntry)
    (primary : CacheEntry) (clazz selector : Nat)
    (hintr : ∀ f p, computeIntrinsic f = some p → 0 < p)
    (hmiss : ¬ ((secondary (csi clazz selector)).clazz = clazz ∧
        (secondary (csi clazz selector)).selector = selector)) :
    (∀ t, lookupMethod clazz selector = some t →
      0 < (lookupEntrySlow lookupMethod computeIntrinsic nsmSelector csi
            secondary primary clazz selector).1.tag) ∧
    (lookupMethod clazz selector = none →
      (lookupEntrySlow lookupMethod computeIntrinsic nsmSelector csi
          secondary primary clazz selector).1.tag = 0 ∧
      (lookupEntrySlow lookupMethod computeIntrinsic nsmSelector csi
          secondary primary clazz selector).1.target =
        lookupMethod clazz nsmSelector) := by
  constructor
  · intro t ht
    unfold lookupEntrySlow
    rw [if_neg hmiss, ht]
    cases hi : computeIntrinsic t with
    | none => simp [hi]
    | some p => simpa [hi] using hintr t p hi
  · intro hnone
    unfold lookupEntrySlow
    rw [if_neg hmiss, hnone]
    exact ⟨rfl, rfl⟩

/-- Method table used by the amended-claim witness: class 1 resolves
selector 5 directly to function 3. -/
def hitLookupMethod : Nat → Nat → Option Nat :=
  fun c s => if c = 1 ∧ s = 5 then some 3 else none

/-- C2 amended witness: the amended claim evaluated at a concrete
direct-hit input, all hypotheses discharged by computation. -/
theorem claim_C2_amended_witness :
    hitLookupMethod 1 5 = some 3 ∧
    0 < (lookupEntrySlow hitLookupMethod (fun _ => none) 99 (fun _ _ => 0)
          (fun _ => ⟨0, 0, none, 0⟩) ⟨0, 0, none, 0⟩ 1 5).1.tag :=
  ⟨by decide,
    (claim_C2_amended hitLookupMethod (fun _ => none) 99 (fun _ _ => 0)
        (fun _ => ⟨0, 0, none, 0⟩) ⟨0, 0, none, 0⟩ 1 5
        (fun f p h => by simp at h) (by decide)).1 3 (by decide)⟩

/-- Message::Kind from message_mailbox.h, the kinds dispatched on by
ProcessQueueGetMessage. -/
inductive MsgKind where
  | IMMEDIATE
  | IMMUTABLE_OBJECT
  | FOREIGN
  | FOREIGN_FINALIZED
  | LARGE_INTEGER
  | EXIT
  | PROCESS_DEATH_SIGNAL
deriving Repr, DecidableEq

/-- Outcome of the native: a materialized value or the retry_after_gc
failure sentinel propagated to the interpreter. -/
inductive NativeOutcome where
  | ok
  | retryAfterGC
deriving Repr, DecidableEq

/-- Mailbox-facing state of the native: the index of the mailbox's
current message and the allocation oracle (success of the successive
allocations the native performs). -/
structure NativeSt where
  currentMessage : Nat
  allocPlan : List Bool
deriving Repr, DecidableEq

/-- Allocation attempt inside the native: consumes one oracle entry (an
exhausted oracle succeeds). -/
def allocAttempt (st : NativeSt) : Bool × NativeSt :=
  match st.allocPlan with
  | [] => (true, st)
  | b :: rest => (b, { st with allocPlan := rest })

/-- MessageMailbox::AdvanceCurrentMessage. -/
def advanceCurrentMessage (st : NativeSt) : NativeSt :=
  { st with currentMessage := st.currentMessage + 1 }

/-- Native ProcessQueueGetMessage from process.cc lines 822-899,
restricted to its control flow: IMMEDIATE, IMMUTABLE_OBJECT and EXIT
materialize without allocating; FOREIGN and FOREIGN_FINALIZED allocate
the foreign-memory instance and return the failure without advancing
when it is retry_after_gc; LARGE_INTEGER allocates the reboxed integer
likewise; PROCESS_DEATH_SIGNAL allocates the dart process instance and
then the process-death instance, returning the failure of either without
advancing; only after successful materialization is
AdvanceCurrentMessage reached. -/
def processQueueGetMessage (kind : MsgKind) (st : NativeSt) :
    NativeOutcome × NativeSt :=
  match kind with
  | .IMMEDIATE => (.ok, advanceCurrentMessage st)
  | .IMMUTABLE_OBJECT => (.ok, advanceCurrentMessage st)
  | .FOREIGN =>
    match allocAttempt st with
    | (true, st1) => (.ok, advanceCurrentMessage st1)
    | (false, st1) => (.retryAfterGC, st1)
  | .FOREIGN_FINALIZED =>
    match allocAttempt st with
    | (true, st1) => (.ok, advanceCurrentMessage st1)
    | (false, st1) => (.retryAfterGC, st1)
  | .LARGE_INTEGER =>
    match allocAttempt st with
    | (true, st1) => (.ok, advanceCurrentMessage st1)
    | (false, st1) => (.retryAfterGC, st1)
  | .EXIT => (.ok, advanceCurrentMessage st)
  | .PROCESS_DEATH_SIGNAL =>
    match allocAttempt st with
    | (true, st1) =>
      match allocAttempt st1 with
      | (true, st2) => (.ok, advanceCurrentMessage st2)
      | (false, st2) => (.retryAfterGC, st2)
    | (false, st1) => (.retryAfterGC, st1)

/-- C8: for every message kind, ProcessQueueGetMessage advances the
mailbox's current message if and only if materialization of the payload
succeeds: the result is ok exactly when the current message moved one
ahead, and the result is retry_after_gc exactly when the current message
is left in place, so the same message is materialized on re-entry. -/
theorem claim_C8 (kind : MsgKind) (st : NativeSt) :
    ((processQueueGetMessage kind st).1 = NativeOutcome.ok ↔
      ((processQueueGetMessage kind st).2).currentMessage =
        st.currentMessage + 1) ∧
    ((processQueueGetMessage kind st).1 = NativeOutcome.retryAfterGC ↔
      ((processQueueGetMessage kind st).2).currentMessage =
        st.currentMessage) := by
  obtain ⟨cm, plan⟩ := st
  cases kind <;>
    rcases plan with _ | ⟨_ | _, _ | ⟨_ | _, r⟩⟩ <;>
    simp [processQueueGetMessage, allocAttempt, advanceCurrentMessage]

/-- Signal-slot state of a process: the atomic pending-signal slot
(none models the null pointer) together with the reference counts of all
signals, indexed by signal id. -/
structure SignalSt where
  signalSlot : Option Nat
  refs : Nat → Nat

/-- Signal::DecrementRef applied to one signal id. -/
def decrementRef (s : Nat) (refs : Nat → Nat) : Nat → Nat :=
  fun x => if x = s then refs x - 1 else refs x

/-- Process::SendSignal: the CAS loop from null, sequentially — while
the slot is null try to install the argument and return on success;
when a signal is already installed (the loop condition fails) the
argument loses and its reference count is decremented once. -/
def sendSignal (s : Nat) (st : SignalSt) : SignalSt :=
  match st.signalSlot with
  | none => { st with signalSlot := some s }
  | some _ => { st with refs := decrementRef s st.refs }

/-- C9: SendSignal installs at most one signal per process — when the
pending slot is null the argument is installed and no reference count
changes; when a signal is already installed the slot is left unchanged,
the loser's reference count is decremented exactly once, and every other
signal's count is untouched. -/
theorem claim_C9 (s : Nat) (st : SignalSt) :
    (st.signalSlot = none →
      (sendSignal s st).signalSlot = some s ∧
      ∀ x, (sendSignal s st).refs x = st.refs x) ∧
    (∀ t, st.signalSlot = some t →
      (sendSignal s st).signalSlot = some t ∧
      (sendSignal s st).refs s = st.refs s - 1 ∧
      ∀ x, x ≠ s → (sendSignal s st).refs x = st.refs x) := by
  constructor
  · intro h
    simp [sendSignal, h]
  · intro t h
    refine ⟨?_, ?_, ?_⟩
    · simp [sendSignal, h]
    · simp [sendSignal, h, decrementRef]
    · intro x hx
      simp [sendSignal, h, decrementRef, hx]

/-- Concrete signal state with signal 3 already installed and every
reference count equal to two. -/
def occupiedSignalSt : SignalSt := ⟨some 3, fun _ => 2⟩

/-- C9 witness: SendSignal of signal 7 against a process that already
holds signal 3, the hypothesis discharged by computation — the slot
keeps signal 3 and signal 7's count drops from two to one. -/
theorem claim_C9_witness :
    occupiedSignalSt.signalSlot = some 3 ∧
    ((sendSignal 7 occupiedSignalSt).signalSlot = some 3 ∧
      (sendSignal 7 occupiedSignalSt).refs 7 = occupiedSignalSt.refs 7 - 1 ∧
      ∀ x, x ≠ 7 → (sendSignal 7 occupiedSignalSt).refs x =
        occupiedSignalSt.refs x) :=
  ⟨rfl, (claim_C9 7 occupiedSignalSt).2 3 rfl⟩

/-- Byte-code-pointer slot of a frame: outside the cook window it holds
a raw byte pointer (an address), between CookStacks and
UncookAndUnchainStacks it holds the owning Function (an id). -/
inductive BcpSlot where
  | raw (addr : Nat)
  | cooked (fn : Nat)
deriving Repr, DecidableEq

/-- Stack as seen by the cook/uncook pass: its heap id, the byte-code
pointer slots of its frames in the order Frame::MovePrevious visits
them, and the next field chaining stacks during GC (none models the
Smi-zero sentinel). -/
structure StackC where
  id : Nat
  frames : List BcpSlot
  next : Option Nat
deriving Repr, DecidableEq

/-- Cooking one frame slot (process.cc lines 679-686): the raw byte-code
pointer is replaced by the owning function
(Function::FromBytecodePointer, abstracted by fnOf).  The source
asserts every slot is raw when cooking; a cooked slot is left alone. -/
def cookSlot (fnOf : Nat → Nat) : BcpSlot → BcpSlot
  | .raw a => .cooked (fnOf a)
  | .cooked f => .cooked f

/-- Delta recorded for one frame while cooking: the byte offset of the
raw pointer from the owning function's bytecode_address_for(0)
(abstracted by bcAddr). -/
def deltaOfSlot (bcAddr fnOf : Nat → Nat) : BcpSlot → Nat
  | .raw a => a - bcAddr (fnOf a)
  | .cooked _ => 0

/-- Process::CookStacks over the reachable chain, given as the list of
stacks the Stack.next walk visits: every frame's slot is cooked and the
per-stack delta lists are recorded in cooked_stack_deltas_. -/
def cookStacks (bcAddr fnOf : Nat → Nat) (chain : List StackC) :
    List StackC × List (List Nat) :=
  (chain.map (fun s => { s with frames := s.frames.map (cookSlot fnOf) }),
   chain.map (fun s => s.frames.map (deltaOfSlot bcAddr fnOf)))

/-- Uncooking one frame: the byte-code pointer is rebuilt as the (new)
bytecode_address_for(0) of the recorded function plus the recorded
delta. -/
def uncookSlot (bcAddr2 : Nat → Nat) : BcpSlot × Nat → BcpSlot
  | (.cooked f, d) => .raw (bcAddr2 f + d)
  | (.raw a, _) => .raw a

/-- Process::UncookAndUnchainStacks: every frame of every visited stack
is rebuilt from its recorded function and delta (the function addresses
possibly having moved, bcAddr2), and each stack's next field is reset to
the Smi-zero sentinel. -/
def uncookAndUnchainStacks (bcAddr2 : Nat → Nat) (chain : List StackC)
    (deltas : List (List Nat)) : List StackC :=
  (chain.zip deltas).map (fun p =>
    { p.1 with frames := (p.1.frames.zip p.2).map (uncookSlot bcAddr2),
               next := none })

/-- Expected frame slot after a cook/uncook round trip under function
relocation from bcAddr to bcAddr2. -/
def recookedSlot (bcAddr bcAddr2 fnOf : Nat → Nat) : BcpSlot → BcpSlot
  | .raw a => .raw (bcAddr2 (fnOf a) + (a - bcAddr (fnOf a)))
  | c => c

/-- C5: for every chain of stacks whose frames hold raw byte-code
pointers lying inside their owning function's bytecode,
UncookAndUnchainStacks after CookStacks restores every frame's byte-code
pointer to bytecode_address_for(0) + delta for the frame's recorded
function and delta, resets every visited stack's next field to the
Smi-zero sentinel, and hence restores every byte-code pointer to its
original value whenever no function moved in between. -/
theorem claim_C5 (bcAddr bcAddr2 fnOf : Nat → Nat) (chain : List StackC)
    (hraw : ∀ s ∈ chain, ∀ sl ∈ s.frames, ∃ a, sl = BcpSlot.raw a)
    (hle : ∀ s ∈ chain, ∀ a, BcpSlot.raw a ∈ s.frames →
      bcAddr (fnOf a) ≤ a) :
    uncookAndUnchainStacks bcAddr2 (cookStacks bcAddr fnOf chain).1
        (cookStacks bcAddr fnOf chain).2 =
      chain.map (fun s =>
        { s with frames := s.frames.map (recookedSlot bcAddr bcAddr2 fnOf),
                 next := none }) ∧
    (∀ s2 ∈ uncookAndUnchainStacks bcAddr2 (cookStacks bcAddr fnOf chain).1
        (cookStacks bcAddr fnOf chain).2, s2.next = none) ∧
    (bcAddr2 = bcAddr →
      (uncookAndUnchainStacks bcAddr2 (cookStacks bcAddr fnOf chain).1
          (cookStacks bcAddr fnOf chain).2).map (fun s => s.frames) =
        chain.map (fun s => s.frames)) := by
  have hmain : uncookAndUnchainStacks bcAddr2 (cookStacks bcAddr fnOf chain).1
      (cookStacks bcAddr fnOf chain).2 =
      chain.map (fun s =>
        { s with frames := s.frames.map (recookedSlot bcAddr bcAddr2 fnOf),
                 next := none }) := by
    unfold uncookAndUnchainStacks cookStacks
    rw [List.zip_map', List.map_map]
    apply List.map_congr_left
    intro s hs
    simp only [Function.comp_apply]
    rw [List.zip_map', List.map_map]
    congr 1
    apply List.map_congr_left
    intro sl hsl
    obtain ⟨a, rfl⟩ := hraw s hs sl hsl
    rfl
  refine ⟨hmain, ?_, ?_⟩
  · intro s2 hs2
    rw [hmain] at hs2
    obtain ⟨s, _, rfl⟩ := List.mem_map.mp hs2
    rfl
  · intro heq
    subst heq
    rw [hmain, List.map_map]
    apply List.map_congr_left
    intro s hs
    simp only [Function.comp_apply]
    show s.frames.map (recookedSlot bcAddr2 bcAddr2 fnOf) = s.frames
    have hid : ∀ sl ∈ s.frames, recookedSlot bcAddr2 bcAddr2 fnOf sl = sl := by
      intro sl hsl
      obtain ⟨a, rfl⟩ := hraw s hs sl hsl
      have h := hle s hs a hsl
      simp [recookedSlot, Nat.add_sub_cancel' h]
    calc s.frames.map (recookedSlot bcAddr2 bcAddr2 fnOf)
        = s.frames.map id := List.map_congr_left hid
      _ = s.frames := List.map_id s.frames

/-- Concrete two-stack chain used by the C5 witness: function ids are
the address divided by 100 and bytecode bases are the function id times
100, so every raw pointer lies inside its function. -/
def cexStacks : List StackC :=
  [⟨0, [BcpSlot.raw 105, BcpSlot.raw 207], some 1⟩,
   ⟨1, [BcpSlot.raw 314], none⟩]

/-- C5 witness: the round trip evaluated on a concrete two-stack chain
with unmoved functions, both hypotheses discharged by explicit
case analysis and computation. -/
theorem claim_C5_witness :
    (∀ s ∈ cexStacks, ∀ sl ∈ s.frames, ∃ a, sl = BcpSlot.raw a) ∧
    (∀ s ∈ cexStacks, ∀ a, BcpSlot.raw a ∈ s.frames → a / 100 * 100 ≤ a) ∧
    (uncookAndUnchainStacks (fun f => f * 100)
        (cookStacks (fun f => f * 100) (fun a => a / 100) cexStacks).1
        (cookStacks (fun f => f * 100) (fun a => a / 100) cexStacks).2).map
        (fun s => s.frames) =
      cexStacks.map (fun s => s.frames) := by
  have h1 : ∀ s ∈ cexStacks, ∀ sl ∈ s.frames, ∃ a, sl = BcpSlot.raw a := by
    intro s hs sl hsl
    fin_cases hs <;> fin_cases hsl <;> exact ⟨_, rfl⟩
  have h2 : ∀ s ∈ cexStacks, ∀ a, BcpSlot.raw a ∈ s.frames →
      a / 100 * 100 ≤ a := by
    intro s hs a ha
    fin_cases hs <;> simp [cexStacks] at ha
    · rcases ha with rfl | rfl <;> decide
    · subst ha
      decide
  exact ⟨h1, h2,
    (claim_C5 (fun f => f * 100) (fun f => f * 100) (fun a => a / 100)
      cexStacks h1 h2).2.2 rfl⟩

end Fletch
